import Mathlib

/-!
# Auction-Chain coordination engine: a shallow embedding

This file embeds the auction coordination engine of the repository
(`src/index.js`, `AuctionServer.setupHandlers` and friends, plus the
peer-side registration retry loop of `src/auction-client/server.js`)
as executable Lean definitions, and proves the specified properties of
the embedded handlers.

Modelling conventions:
* JavaScript numbers (prices, amounts, timestamps in milliseconds) are
  modelled as rationals `ℚ`; `Date.now()` is an explicit `now : ℚ`
  parameter threaded into each handler.
* The persistent store interaction of one handler call is modelled by
  passing in the looked-up record (`Option Auction`, `none` for a
  missing key) and returning the record written back, if any
  (`write : Option Auction`, `none` when the handler performs no
  `put`), together with the list of events handed to `notifyClients`.
* JavaScript `undefined`/`null` fields become `Option` fields.
-/

/-- A bid as recorded by the `placeBid` handler:
`{ bidder, amount, timestamp }`. -/
structure Bid where
  bidder : String
  amount : ℚ
  timestamp : ℚ
deriving DecidableEq

/-- The shape produced by the `closeAuction` reduce over bids, whose
initial element is `\x7b amount: 0, bidder: null, timestamp: null \x7d`:
bidder and timestamp may be null. -/
structure StoredBid where
  bidder : Option String
  amount : ℚ
  timestamp : Option ℚ
deriving DecidableEq

/-- An auction record as stored in the hyperbee under its `auctionId`
(created by the `openAuction` handler, mutated by `placeBid`,
`closeAuction` and the Dutch auction timer). -/
structure Auction where
  item : String
  auctionId : String
  bids : List Bid
  closed : Bool
  auctionType : String
  startPrice : ℚ
  startTime : ℚ
  decrementRate : ℚ
  minimumPrice : ℚ
  currentPrice : ℚ
  winner : Option String
  finalPrice : Option ℚ
  winningBid : Option Bid
  highestBid : Option StoredBid
deriving DecidableEq

/-- One event handed to `notifyClients`, by event type, with the payload
fields the source sends for that event (`Option` for fields that are
absent or `undefined` in some payloads). -/
inductive Event where
  | newAuction (auctionId : String) (auction : Auction)
  | newBid (auctionId : String) (bid : Bid) (auctionType : String)
      (closed : Bool) (currentPrice : ℚ)
  | auctionClosed (auctionId : String) (highestBid : Option StoredBid)
      (winningBid : Option Bid) (auctionType : Option String)
      (finalPrice : Option ℚ) (reason : Option String)
  | priceUpdate (auctionId : String) (currentPrice : ℚ)
deriving DecidableEq

/-- Whether an event is an `auctionClosed` broadcast. -/
def Event.isAuctionClosed : Event → Bool
  | .auctionClosed _ _ _ _ _ _ => true
  | _ => false

/-- `calculateDutchPrice(startPrice, startTime, decrementRate,
minimumPrice)`: elapsed time in seconds is `(Date.now() - startTime) /
1000`, and the result is
`Math.max(startPrice - decrementRate * elapsedTime, minimumPrice)`. -/
def calculateDutchPrice (startPrice startTime decrementRate minimumPrice now : ℚ) : ℚ :=
  max (startPrice - decrementRate * ((now - startTime) / 1000)) minimumPrice

/-! ## openAuction -/

/-- The parsed `openAuction` request payload. `auctionType`,
`decrementRate` and `minimumPrice` may be absent. -/
structure OpenAuctionRequest where
  item : String
  price : ℚ
  auctionType : Option String
  decrementRate : Option ℚ
  minimumPrice : Option ℚ
deriving DecidableEq

/-- `req.auctionType || 'english'`: an absent or empty (falsy) auction
type defaults to `"english"`. -/
def defaultAuctionType (t : Option String) : String :=
  match t with
  | none => "english"
  | some s => if s = "" then "english" else s

/-- `parseFloat(req.decrementRate) || 1`: absent (NaN, falsy) or zero
(falsy) becomes `1`. -/
def defaultDecrementRate (r : Option ℚ) : ℚ :=
  match r with
  | none => 1
  | some x => if x = 0 then 1 else x

/-- `parseFloat(req.minimumPrice) || 0`: absent (NaN, falsy) or zero
becomes `0`. -/
def defaultMinimumPrice (m : Option ℚ) : ℚ :=
  match m with
  | none => 0
  | some x => if x = 0 then 0 else x

/-- Result of one `openAuction` handler call: the response (`some
auctionId` on success), the record written, the events broadcast, and
whether a Dutch auction timer was started. -/
structure OpenAuctionResult where
  auctionId? : Option String
  write : Option Auction
  events : List Event
  startedDutchTimer : Bool
deriving DecidableEq

/-- The `openAuction` handler: builds the auction record (with the
source's defaulting of `auctionType`, `decrementRate`, `minimumPrice`),
persists it, broadcasts `newAuction`, starts the Dutch timer when
`req.auctionType === 'dutch'`, and returns the fresh `auctionId`.
The source performs no validation of the request. -/
def openAuction (req : OpenAuctionRequest) (auctionId : String) (now : ℚ) :
    OpenAuctionResult :=
  let auction : Auction :=
    { item := req.item
      auctionId := auctionId
      bids := []
      closed := false
      auctionType := defaultAuctionType req.auctionType
      startPrice := req.price
      startTime := now
      decrementRate := if req.auctionType = some "dutch" then defaultDecrementRate req.decrementRate else 0
      minimumPrice := if req.auctionType = some "dutch" then defaultMinimumPrice req.minimumPrice else 0
      currentPrice := req.price
      winner := none
      finalPrice := none
      winningBid := none
      highestBid := none }
  { auctionId? := some auctionId
    write := some auction
    events := [Event.newAuction auctionId auction]
    startedDutchTimer := req.auctionType = some "dutch" }

/-! ## placeBid -/

/-- The response of the `placeBid` handler. `bidTooLowEnglish` carries
whether the message names the starting price (the source compares the
threshold with `startPrice` to word the error), the threshold amount,
and `startPrice`. -/
inductive PlaceBidResponse where
  | notFound
  | alreadyClosed
  | bidTooLowDutch (currentPrice : ℚ)
  | bidTooLowEnglish (thresholdIsStartPrice : Bool) (currentHighestBid : ℚ) (startPrice : ℚ)
  | success (currentPrice : ℚ) (closed : Bool)
deriving DecidableEq

/-- Result of one `placeBid` handler call. -/
structure PlaceBidResult where
  response : PlaceBidResponse
  write : Option Auction
  events : List Event
deriving DecidableEq

/-- The English-branch threshold computation:
`bids.reduce((max, bid) => bid.amount > max.amount ? bid : max,
\x7b amount: 0 \x7d).amount` — a left fold whose initial amount is `0`. -/
def maxBidAmount (bids : List Bid) : ℚ :=
  bids.foldl (fun m b => if b.amount > m then b.amount else m) 0

/-- The shared tail of the accepting paths of `placeBid`: push the new
bid, set `currentPrice`, persist, broadcast `newBid`, and answer
`\x7b success, currentPrice, closed \x7d`. -/
def acceptBid (a : Auction) (auctionId bidder : String) (amount now : ℚ) :
    PlaceBidResult :=
  let newBid : Bid := { bidder := bidder, amount := amount, timestamp := now }
  let a' : Auction := { a with bids := a.bids ++ [newBid], currentPrice := amount }
  { response := PlaceBidResponse.success amount a'.closed
    write := some a'
    events := [Event.newBid auctionId newBid a'.auctionType a'.closed amount] }

/-- The `placeBid` handler of `src/index.js`. -/
def placeBid (auction? : Option Auction) (auctionId bidder : String) (amount now : ℚ) :
    PlaceBidResult :=
  match auction? with
  | none => { response := PlaceBidResponse.notFound, write := none, events := [] }
  | some a =>
    if a.closed then
      { response := PlaceBidResponse.alreadyClosed, write := none, events := [] }
    else if a.auctionType = "dutch" then
      let currentPrice :=
        calculateDutchPrice a.startPrice a.startTime a.decrementRate a.minimumPrice now
      if amount < currentPrice then
        { response := PlaceBidResponse.bidTooLowDutch currentPrice, write := none, events := [] }
      else
        acceptBid
          { a with closed := true
                   winner := some bidder
                   finalPrice := some amount
                   winningBid := some { bidder := bidder, amount := amount, timestamp := now } }
          auctionId bidder amount now
    else
      let threshold := if a.bids.length > 0 then maxBidAmount a.bids else a.startPrice
      if amount ≤ threshold then
        { response := PlaceBidResponse.bidTooLowEnglish (threshold = a.startPrice) threshold a.startPrice
          write := none
          events := [] }
      else
        acceptBid a auctionId bidder amount now

/-! ## closeAuction -/

/-- The response of the `closeAuction` handler. The already-closed
branch answers an error carrying `auctionDetails.highestBid || null`
only; the closing branch answers
`\x7b success, highestBid, winningBid, auctionType \x7d`. -/
inductive CloseAuctionResponse where
  | notFound
  | alreadyClosed (highestBid : Option StoredBid)
  | success (highestBid : Option StoredBid) (winningBid : Option Bid) (auctionType : String)
deriving DecidableEq

/-- Result of one `closeAuction` handler call. -/
structure CloseAuctionResult where
  response : CloseAuctionResponse
  write : Option Auction
  events : List Event
deriving DecidableEq

/-- The `closeAuction` reduce:
`bids.reduce((max, bid) => bid.amount > max.amount ? bid : max,
\x7b amount: 0, bidder: null, timestamp: null \x7d)`. -/
def maxStoredBid (bids : List Bid) : StoredBid :=
  bids.foldl
    (fun m b =>
      if b.amount > m.amount then
        { bidder := some b.bidder, amount := b.amount, timestamp := some b.timestamp }
      else m)
    { bidder := none, amount := 0, timestamp := none }

/-- The `closeAuction` handler of `src/index.js`. -/
def closeAuction (auction? : Option Auction) (auctionId : String) : CloseAuctionResult :=
  match auction? with
  | none => { response := CloseAuctionResponse.notFound, write := none, events := [] }
  | some a =>
    if a.closed then
      { response := CloseAuctionResponse.alreadyClosed a.highestBid, write := none, events := [] }
    else
      let a1 : Auction := { a with closed := true }
      let a2 : Auction :=
        if a1.auctionType = "english" then { a1 with highestBid := some (maxStoredBid a1.bids) }
        else a1
      { response := CloseAuctionResponse.success a2.highestBid a2.winningBid a2.auctionType
        write := some a2
        events := [Event.auctionClosed auctionId a2.highestBid a2.winningBid
          (some a2.auctionType) a2.finalPrice none] }

/-! ## getAuctionDetails -/

/-- The response of the `getAuctionDetails` handler. -/
inductive GetAuctionDetailsResponse where
  | notFound
  | found (auction : Auction)
deriving DecidableEq

/-- Result of one `getAuctionDetails` handler call (it never puts). -/
structure GetAuctionDetailsResult where
  response : GetAuctionDetailsResponse
  write : Option Auction
deriving DecidableEq

/-- The `getAuctionDetails` handler of `src/index.js`: for Dutch
auctions (closed or not) it overwrites `currentPrice` in the returned
copy with the freshly computed decayed price; it never writes to the
store. -/
def getAuctionDetails (auction? : Option Auction) (now : ℚ) : GetAuctionDetailsResult :=
  match auction? with
  | none => { response := GetAuctionDetailsResponse.notFound, write := none }
  | some a =>
    if a.auctionType = "dutch" then
      { response := GetAuctionDetailsResponse.found
          { a with currentPrice :=
              calculateDutchPrice a.startPrice a.startTime a.decrementRate a.minimumPrice now }
        write := none }
    else
      { response := GetAuctionDetailsResponse.found a, write := none }

/-! ## Dutch auction timer tick -/

/-- Result of one tick of the `startDutchAuctionTimer` interval
callback: the record written (if any), the events broadcast, and
whether the tick called `clearInterval`. -/
structure DutchTickResult where
  write : Option Auction
  events : List Event
  stopTimer : Bool
deriving DecidableEq

/-- One tick of the Dutch auction timer in `startDutchAuctionTimer`:
reload the record; if missing or closed, stop the timer with no write;
otherwise compute the decayed price; at or below `minimumPrice`, close
at the minimum, persist, broadcast `auctionClosed` with reason
`"minimum_price_reached"`, and stop; otherwise update `currentPrice`,
persist and broadcast `priceUpdate`. -/
def dutchAuctionTick (auction? : Option Auction) (auctionId : String) (now : ℚ) :
    DutchTickResult :=
  match auction? with
  | none => { write := none, events := [], stopTimer := true }
  | some a =>
    if a.closed then { write := none, events := [], stopTimer := true }
    else
      let currentPrice :=
        calculateDutchPrice a.startPrice a.startTime a.decrementRate a.minimumPrice now
      if currentPrice ≤ a.minimumPrice then
        { write := some { a with closed := true, currentPrice := a.minimumPrice }
          events := [Event.auctionClosed auctionId none none none (some a.minimumPrice)
            (some "minimum_price_reached")]
          stopTimer := true }
      else
        { write := some { a with currentPrice := currentPrice }
          events := [Event.priceUpdate auctionId currentPrice]
          stopTimer := false }

/-! ## registerClient (coordinator side) -/

/-- Result of one `registerClient` handler call: the response is always
`\x7b success: true \x7d` in the modelled (well-formed request) path;
`directory` is the directory after the call and `didWrite` whether a
`put` happened. -/
structure RegisterClientResult where
  success : Bool
  directory : List String
  didWrite : Bool
deriving DecidableEq

/-- The `registerClient` handler of `src/index.js`: load the client
list stored under the server id (or start from an empty one), append
the peer key only if not already present, and answer success either
way. -/
def registerClient (stored : Option (List String)) (peerId : String) :
    RegisterClientResult :=
  let clients := stored.getD []
  if peerId ∈ clients then
    { success := true, directory := clients, didWrite := false }
  else
    { success := true, directory := clients ++ [peerId], didWrite := true }

/-! ## Peer-side registration retry (src/auction-client/server.js) -/

/-- Outcome of the peer-side `registerClient` retry loop: either a
plain return after a successful attempt, or `process.exit(1)` after
exhausting the retry budget. -/
inductive RegisterOutcome where
  | success
  | fatalExit
deriving DecidableEq

/-- The delay, in milliseconds, slept after each failed registration
attempt (`setTimeout(resolve, 2000)`). -/
def registrationDelayMs : ℚ := 2000

/-- The retry budget of `ClientServer.registerClient(retryCount = 5)`. -/
def registrationRetryCount : Nat := 5

/-- The `while (attempts > 0)` loop of
`ClientServer.registerClient`: `transport i` is the outcome of the
`i`-th transport attempt (counting from `tried`); the result is the
final outcome, the number of attempts made, and the number of 2-second
waits performed. A successful attempt returns immediately; a failed
one waits and decrements the budget; a spent budget exits fatally. -/
def registerRetryLoop (transport : Nat → Bool) (tried attempts : Nat) :
    RegisterOutcome × Nat × Nat :=
  match attempts with
  | 0 => (RegisterOutcome.fatalExit, 0, 0)
  | n + 1 =>
    if transport tried then (RegisterOutcome.success, 1, 0)
    else
      let rest := registerRetryLoop transport (tried + 1) n
      (rest.1, rest.2.1 + 1, rest.2.2 + 1)

/-- `ClientServer.registerClient` with its default budget of 5. -/
def registerClientPeer (transport : Nat → Bool) : RegisterOutcome × Nat × Nat :=
  registerRetryLoop transport 0 registrationRetryCount

/-! ## Example records used by witnesses and counterexamples -/

/-- The Dutch auction of the spec's scenario:
`openAuction(item="Print", price=500, type="dutch", decrementRate=5,
minimumPrice=250)`, still open, no bids. -/
def dutchAuctionB : Auction :=
  { item := "Print", auctionId := "B", bids := [], closed := false, auctionType := "dutch",
    startPrice := 500, startTime := 0, decrementRate := 5, minimumPrice := 250,
    currentPrice := 500, winner := none, finalPrice := none, winningBid := none,
    highestBid := none }

/-- The English auction of the spec's scenario after alice's accepted
bid of 1200: `openAuction(item="Antique Timepiece", price=1000,
type="english")`, then `placeBid(A,"alice",1200)`. -/
def englishAuctionA : Auction :=
  { item := "Antique Timepiece", auctionId := "A",
    bids := [{ bidder := "alice", amount := 1200, timestamp := 1 }],
    closed := false, auctionType := "english",
    startPrice := 1000, startTime := 0, decrementRate := 0, minimumPrice := 0,
    currentPrice := 1200, winner := none, finalPrice := none, winningBid := none,
    highestBid := none }

/-- `dutchAuctionB` after the Dutch timer closed it at the minimum
price. -/
def closedDutchB : Auction :=
  { dutchAuctionB with closed := true, currentPrice := 250 }

/-! ## Helper lemmas about the bid folds -/

theorem foldl_bid_ge_init (bids : List Bid) (init : ℚ) :
    init ≤ bids.foldl (fun m b => if b.amount > m then b.amount else m) init := by
  induction bids generalizing init with
  | nil => simp
  | cons b bs ih =>
    simp only [List.foldl_cons]
    refine le_trans ?_ (ih _)
    split_ifs with h
    · exact le_of_lt h
    · exact le_rfl

theorem foldl_bid_ge_mem (bids : List Bid) (init : ℚ) (b : Bid) (hb : b ∈ bids) :
    b.amount ≤ bids.foldl (fun m b => if b.amount > m then b.amount else m) init := by
  induction bids generalizing init with
  | nil => cases hb
  | cons c cs ih =>
    simp only [List.foldl_cons]
    rcases List.mem_cons.mp hb with h | h
    · subst h
      refine le_trans ?_ (foldl_bid_ge_init cs _)
      split_ifs with hc
      · exact le_rfl
      · exact le_of_not_lt hc
    · exact ih _ h

theorem foldl_bid_le (bids : List Bid) (init M : ℚ) (hinit : init ≤ M)
    (hub : ∀ b ∈ bids, b.amount ≤ M) :
    bids.foldl (fun m b => if b.amount > m then b.amount else m) init ≤ M := by
  induction bids generalizing init with
  | nil => simpa using hinit
  | cons b bs ih =>
    simp only [List.foldl_cons]
    refine ih _ ?_ ?_
    · split_ifs with h
      · exact hub b (by simp)
      · exact hinit
    · intro x hx
      exact hub x (by simp [hx])

/-- Under the data-model invariant that every recorded bid has a
positive amount, the source's fold with initial amount `0` computes the
true maximum bid amount. -/
theorem maxBidAmount_eq (bids : List Bid) (M : ℚ)
    (hmem : ∃ b ∈ bids, b.amount = M) (hub : ∀ b ∈ bids, b.amount ≤ M) (hM : 0 ≤ M) :
    maxBidAmount bids = M := by
  rcases hmem with ⟨b, hb, hbM⟩
  refine le_antisymm (foldl_bid_le bids 0 M hM hub) ?_
  calc M = b.amount := hbM.symm
    _ ≤ _ := foldl_bid_ge_mem bids 0 b hb

/-! ## C3: closed auctions are immutable -/

/-- C3: for every auction with `closed = true`, no operation mutates it
further: `placeBid` answers `AlreadyClosed` with no write and no
broadcast, `closeAuction` answers the already-closed error with no
write and no broadcast, and a Dutch timer tick that observes
`closed = true` stops the timer with no write. -/
theorem closed_auction_immutable (a : Auction) (auctionId bidder : String) (amount now : ℚ)
    (h : a.closed = true) :
    placeBid (some a) auctionId bidder amount now =
      { response := PlaceBidResponse.alreadyClosed, write := none, events := [] } ∧
    closeAuction (some a) auctionId =
      { response := CloseAuctionResponse.alreadyClosed a.highestBid, write := none,
        events := [] } ∧
    dutchAuctionTick (some a) auctionId now =
      { write := none, events := [], stopTimer := true } := by
  refine ⟨?_, ?_, ?_⟩ <;> simp [placeBid, closeAuction, dutchAuctionTick, h]

/-- Witness for `closed_auction_immutable` at a concrete closed Dutch
auction. -/
theorem closed_auction_immutable_witness :
    placeBid (some closedDutchB) "B" "dave" 600 0 =
      { response := PlaceBidResponse.alreadyClosed, write := none, events := [] } :=
  (closed_auction_immutable closedDutchB "B" "dave" 600 0 rfl).1

/-! ## C7: registerClient is idempotent -/

/-- C7: `registerClient` always answers success; registering an
already-present peer performs no write and leaves the directory
unchanged; registering the same peer twice is idempotent and, starting
from a directory without that peer, leaves exactly one entry for it. -/
theorem registerClient_idempotent (stored : Option (List String)) (p : String) :
    (registerClient stored p).success = true ∧
    (p ∈ stored.getD [] →
      (registerClient stored p).didWrite = false ∧
      (registerClient stored p).directory = stored.getD []) ∧
    (registerClient (some (registerClient stored p).directory) p).directory =
      (registerClient stored p).directory ∧
    ((stored.getD []).count p = 0 →
      ((registerClient (some (registerClient stored p).directory) p).directory).count p = 1) := by
  by_cases hp : p ∈ stored.getD []
  · refine ⟨by simp [registerClient, hp], fun _ => ⟨by simp [registerClient, hp], by simp [registerClient, hp]⟩, by simp [registerClient, hp], fun hc => ?_⟩
    exact absurd hp (List.count_eq_zero.mp hc)
  · refine ⟨by simp [registerClient, hp], fun hmem => absurd hmem hp, by simp [registerClient, hp], fun hc => ?_⟩
    simp [registerClient, hp, List.count_append, List.count_eq_zero.mpr hp]

/-- Witness for `registerClient_idempotent`: registering `"peer1"`
twice starting from an empty store leaves exactly one entry. -/
theorem registerClient_idempotent_witness :
    ((registerClient (some (registerClient none "peer1").directory) "peer1").directory).count
      "peer1" = 1 :=
  (registerClient_idempotent none "peer1").2.2.2 rfl

/-! ## C8: peer-side registration retry -/

theorem registerRetryLoop_le (transport : Nat → Bool) (attempts : Nat) :
    ∀ tried, (registerRetryLoop transport tried attempts).2.1 ≤ attempts := by
  induction attempts with
  | zero => intro tried; simp [registerRetryLoop]
  | succ n ih =>
    intro tried
    simp only [registerRetryLoop]
    split
    · simp
    · simpa using Nat.add_le_add_right (ih (tried + 1)) 1

theorem registerRetryLoop_success (transport : Nat → Bool) (k : Nat) :
    ∀ tried attempts, k < attempts → transport (tried + k) = true →
      (∀ i, i < k → transport (tried + i) = false) →
      registerRetryLoop transport tried attempts = (RegisterOutcome.success, k + 1, k) := by
  induction k with
  | zero =>
    intro tried attempts hk hs _
    match attempts, hk with
    | n + 1, _ =>
      simp only [Nat.add_zero] at hs
      simp [registerRetryLoop, hs]
  | succ k ih =>
    intro tried attempts hk hs hf
    match attempts, hk with
    | n + 1, hk =>
      have h0 : transport tried = false := by simpa using hf 0 (Nat.succ_pos k)
      have hs' : transport (tried + 1 + k) = true := by
        have he : tried + 1 + k = tried + (k + 1) := by omega
        rw [he]; exact hs
      have hf' : ∀ i, i < k → transport (tried + 1 + i) = false := by
        intro i hi
        have he : tried + 1 + i = tried + (i + 1) := by omega
        rw [he]; exact hf (i + 1) (by omega)
      have hrec := ih (tried + 1) n (Nat.lt_of_succ_lt_succ hk) hs' hf'
      simp [registerRetryLoop, h0, hrec]

theorem registerRetryLoop_exhausted (transport : Nat → Bool) (attempts : Nat) :
    ∀ tried, (∀ i, i < attempts → transport (tried + i) = false) →
      registerRetryLoop transport tried attempts =
        (RegisterOutcome.fatalExit, attempts, attempts) := by
  induction attempts with
  | zero => intro tried _; simp [registerRetryLoop]
  | succ n ih =>
    intro tried hf
    have h0 : transport tried = false := by simpa using hf 0 (Nat.succ_pos n)
    have hrec := ih (tried + 1) (fun i hi => by
      have he : tried + 1 + i = tried + (i + 1) := by omega
      rw [he]; exact hf (i + 1) (by omega))
    simp [registerRetryLoop, h0, hrec]

/-- C8: the peer-side registration procedure sleeps 2000 ms between
attempts, makes at most 5 attempts in total, returns success
immediately after the first transport success (after `k` failures:
`k + 1` attempts, `k` waits, no wait after the success), and after all
5 attempts fail performs `process.exit(1)` — a fatal end, not an
unbounded retry. -/
theorem registration_retry_bounded (transport : Nat → Bool) (k : Nat) :
    registrationDelayMs = 2000 ∧
    registrationRetryCount = 5 ∧
    (registerClientPeer transport).2.1 ≤ 5 ∧
    (k < 5 → transport k = true → (∀ i, i < k → transport i = false) →
      registerClientPeer transport = (RegisterOutcome.success, k + 1, k)) ∧
    ((∀ i, i < 5 → transport i = false) →
      registerClientPeer transport = (RegisterOutcome.fatalExit, 5, 5)) := by
  refine ⟨rfl, rfl, registerRetryLoop_le transport 5 0, ?_, ?_⟩
  · intro hk hs hf
    exact registerRetryLoop_success transport k 0 5 hk (by simpa using hs)
      (fun i hi => by simpa using hf i hi)
  · intro hf
    exact registerRetryLoop_exhausted transport 5 0 (fun i hi => by simpa using hf i hi)

/-- Witness for `registration_retry_bounded`: a transport that succeeds
on the third attempt yields success after 3 attempts and 2 waits. -/
theorem registration_retry_bounded_witness :
    registerClientPeer (fun n => n == 2) = (RegisterOutcome.success, 3, 2) :=
  (registration_retry_bounded (fun n => n == 2) 2).2.2.2.1 (by omega) (by decide)
    (by decide)

/-! ## C4: Dutch decay formula and auto-close at the minimum -/

/-- C4 (amended): `calculateDutchPrice` after `t` elapsed seconds is
`max (startPrice - decrementRate * t) minimumPrice` (450 for the
spec's 500/5/250 example at `t = 10`), and a timer tick on an open
auction closes it — writing `currentPrice = minimumPrice` and
broadcasting `auctionClosed` with reason `"minimum_price_reached"` —
exactly when the computed price has reached the minimum price,
otherwise persisting the decayed price and broadcasting
`priceUpdate`. -/
theorem dutch_decay_and_autoclose (a : Auction) (auctionId : String)
    (s t0 d m t now : ℚ) (hopen : a.closed = false) :
    calculateDutchPrice s t0 d m (t0 + 1000 * t) = max (s - d * t) m ∧
    calculateDutchPrice 500 0 5 250 (0 + 1000 * 10) = 450 ∧
    (calculateDutchPrice a.startPrice a.startTime a.decrementRate a.minimumPrice now =
        a.minimumPrice →
      dutchAuctionTick (some a) auctionId now =
        { write := some { a with closed := true, currentPrice := a.minimumPrice }
          events := [Event.auctionClosed auctionId none none none (some a.minimumPrice)
            (some "minimum_price_reached")]
          stopTimer := true }) ∧
    (calculateDutchPrice a.startPrice a.startTime a.decrementRate a.minimumPrice now ≠
        a.minimumPrice →
      dutchAuctionTick (some a) auctionId now =
        { write := some { a with currentPrice := calculateDutchPrice a.startPrice a.startTime a.decrementRate a.minimumPrice now }
          events := [Event.priceUpdate auctionId
            (calculateDutchPrice a.startPrice a.startTime a.decrementRate a.minimumPrice now)]
          stopTimer := false }) := by
  refine ⟨?_, by norm_num [calculateDutchPrice], ?_, ?_⟩
  · unfold calculateDutchPrice
    have he : (t0 + 1000 * t - t0) / 1000 = t := by ring
    rw [he]
  · intro h
    simp [dutchAuctionTick, hopen, h]
  · intro h
    have hge : a.minimumPrice ≤
        calculateDutchPrice a.startPrice a.startTime a.decrementRate a.minimumPrice now :=
      le_max_right _ _
    have hnle : ¬ calculateDutchPrice a.startPrice a.startTime a.decrementRate
        a.minimumPrice now ≤ a.minimumPrice := fun hle => h (le_antisymm hle hge)
    simp [dutchAuctionTick, hopen, hnle]

/-- Counterexample to C4 as stated: the reason the source broadcasts is
the literal `"minimum_price_reached"`, not `"minimum price reached"`. -/
theorem dutch_autoclose_reason_string :
    (dutchAuctionTick (some dutchAuctionB) "B" 50000).events =
      [Event.auctionClosed "B" none none none (some 250) (some "minimum_price_reached")] ∧
    "minimum_price_reached" ≠ "minimum price reached" := by
  constructor
  · norm_num [dutchAuctionTick, dutchAuctionB, calculateDutchPrice]
  · decide

/-- Witness for `dutch_decay_and_autoclose`: the spec's decay example,
450 after 10 seconds. -/
theorem dutch_decay_and_autoclose_witness :
    calculateDutchPrice 500 0 5 250 (0 + 1000 * 10) = 450 :=
  (dutch_decay_and_autoclose dutchAuctionB "B" 500 0 5 250 10 0 rfl).2.1

/-! ## C10: getAuctionDetails is read-only and recomputes Dutch prices -/

/-- The `currentPrice` carried by a `getAuctionDetails` response. -/
def GetAuctionDetailsResponse.returnedCurrentPrice :
    GetAuctionDetailsResponse → Option ℚ
  | .found a => some a.currentPrice
  | .notFound => none

/-- C10: `getAuctionDetails` never writes to the store; for every Dutch
auction, open or closed, the returned record carries the freshly
computed decayed price; and for the concrete Dutch auction closed by
carol's winning bid at 500, the price returned 10 seconds in is 450,
differing from both the persisted `currentPrice` (500) and
`finalPrice` (500), while the store saw no write. -/
theorem getAuctionDetails_readonly (auction? : Option Auction) (a : Auction) (now : ℚ) :
    (getAuctionDetails auction? now).write = none ∧
    (a.auctionType = "dutch" →
      (getAuctionDetails (some a) now).response =
        GetAuctionDetailsResponse.found
          { a with currentPrice := calculateDutchPrice a.startPrice a.startTime a.decrementRate a.minimumPrice now }) ∧
    ((placeBid (some dutchAuctionB) "B" "carol" 500 0).write.map
        (fun a1 => ((getAuctionDetails (some a1) 10000).response.returnedCurrentPrice,
          (getAuctionDetails (some a1) 10000).write,
          a1.currentPrice, a1.finalPrice, a1.closed)) =
      some (some 450, none, 500, some 500, true) ∧
     (450 : ℚ) ≠ 500) := by
  refine ⟨?_, ?_, ?_, by norm_num⟩
  · cases auction? with
    | none => rfl
    | some a' =>
      simp only [getAuctionDetails]
      split <;> rfl
  · intro h
    simp [getAuctionDetails, h]
  · norm_num [placeBid, dutchAuctionB, acceptBid, calculateDutchPrice, getAuctionDetails,
      GetAuctionDetailsResponse.returnedCurrentPrice]

/-- Witness for `getAuctionDetails_readonly`: reading the open Dutch
auction after 10 seconds returns the decayed price without writing. -/
theorem getAuctionDetails_readonly_witness :
    (getAuctionDetails (some dutchAuctionB) 10000).response =
      GetAuctionDetailsResponse.found
        { dutchAuctionB with currentPrice := calculateDutchPrice dutchAuctionB.startPrice dutchAuctionB.startTime dutchAuctionB.decrementRate dutchAuctionB.minimumPrice 10000 } :=
  (getAuctionDetails_readonly (some dutchAuctionB) dutchAuctionB 10000).2.1 rfl

/-! ## C9: every accepted bid is appended to bids -/

/-- C9: an accepted `placeBid` appends the new bid to `bids` in the
Dutch branch as well as the English one; a Dutch auction closed by a
winning bid therefore ends with a non-empty `bids` list whose last
element carries the same bidder and amount as the stored
`winningBid`. -/
theorem accepted_bid_appended (a : Auction) (auctionId bidder : String) (amount now : ℚ)
    (hopen : a.closed = false) :
    (a.auctionType = "dutch" →
      calculateDutchPrice a.startPrice a.startTime a.decrementRate a.minimumPrice now ≤ amount →
      ∃ a' w, (placeBid (some a) auctionId bidder amount now).write = some a' ∧
        a'.bids = a.bids ++ [{ bidder := bidder, amount := amount, timestamp := now }] ∧
        a'.bids ≠ [] ∧
        a'.winningBid = some w ∧
        a'.bids.getLast? = some { bidder := bidder, amount := amount, timestamp := now } ∧
        w.bidder = bidder ∧ w.amount = amount) ∧
    (¬ a.auctionType = "dutch" →
      (if a.bids.length > 0 then maxBidAmount a.bids else a.startPrice) < amount →
      ∃ a', (placeBid (some a) auctionId bidder amount now).write = some a' ∧
        a'.bids = a.bids ++ [{ bidder := bidder, amount := amount, timestamp := now }]) := by
  constructor
  · intro hd hle
    have hnlt : ¬ amount <
        calculateDutchPrice a.startPrice a.startTime a.decrementRate a.minimumPrice now :=
      not_lt.mpr hle
    refine ⟨{ a with closed := true, winner := some bidder, finalPrice := some amount, winningBid := some { bidder := bidder, amount := amount, timestamp := now }, bids := a.bids ++ [{ bidder := bidder, amount := amount, timestamp := now }], currentPrice := amount },
      { bidder := bidder, amount := amount, timestamp := now },
      ?_, rfl, ?_, rfl, ?_, rfl, rfl⟩
    · simp [placeBid, acceptBid, hopen, hd, hnlt]
    · simp
    · simp [List.getLast?_append_cons]
  · intro hd hlt
    have hnle : ¬ amount ≤ (if a.bids.length > 0 then maxBidAmount a.bids else a.startPrice) :=
      not_le.mpr hlt
    refine ⟨{ a with bids := a.bids ++ [{ bidder := bidder, amount := amount, timestamp := now }], currentPrice := amount }, ?_, rfl⟩
    simp [placeBid, acceptBid, hopen, hd, hnle]

/-- Witness for `accepted_bid_appended`: carol's accepted Dutch bid at
500 is appended and matches the stored winning bid. -/
theorem accepted_bid_appended_witness :
    ∃ a' w, (placeBid (some dutchAuctionB) "B" "carol" 500 0).write = some a' ∧
      a'.bids = dutchAuctionB.bids ++ [{ bidder := "carol", amount := 500, timestamp := 0 }] ∧
      a'.bids ≠ [] ∧
      a'.winningBid = some w ∧
      a'.bids.getLast? = some { bidder := "carol", amount := 500, timestamp := 0 } ∧
      w.bidder = "carol" ∧ w.amount = 500 :=
  (accepted_bid_appended dutchAuctionB "B" "carol" 500 0 rfl).1 rfl
    (by norm_num [dutchAuctionB, calculateDutchPrice])

/-! ## C1: Dutch placeBid -/

/-- C1 (amended): for an open Dutch auction, a bid strictly below the
decayed current price fails `BidTooLow` carrying that price with no
write and no broadcast; a bid at or above it is terminal — `closed`,
`winner`, `finalPrice` and `winningBid` are set, the bid is appended,
the record is persisted — and the broadcast event is `newBid` (whose
payload carries `closed = true`), not `auctionClosed`. -/
theorem dutch_placeBid_first_bid_wins (a : Auction) (auctionId bidder : String)
    (amount now : ℚ) (hopen : a.closed = false) (hdutch : a.auctionType = "dutch") :
    (amount < calculateDutchPrice a.startPrice a.startTime a.decrementRate a.minimumPrice now →
      placeBid (some a) auctionId bidder amount now =
        { response := PlaceBidResponse.bidTooLowDutch
            (calculateDutchPrice a.startPrice a.startTime a.decrementRate a.minimumPrice now)
          write := none
          events := [] }) ∧
    (calculateDutchPrice a.startPrice a.startTime a.decrementRate a.minimumPrice now ≤ amount →
      placeBid (some a) auctionId bidder amount now =
        { response := PlaceBidResponse.success amount true
          write := some { a with closed := true, winner := some bidder, finalPrice := some amount, winningBid := some { bidder := bidder, amount := amount, timestamp := now }, bids := a.bids ++ [{ bidder := bidder, amount := amount, timestamp := now }], currentPrice := amount }
          events := [Event.newBid auctionId { bidder := bidder, amount := amount, timestamp := now } a.auctionType true amount] }) := by
  constructor
  · intro h
    simp [placeBid, hopen, hdutch, h]
  · intro h
    have hnlt : ¬ amount <
        calculateDutchPrice a.startPrice a.startTime a.decrementRate a.minimumPrice now :=
      not_lt.mpr h
    simp [placeBid, acceptBid, hopen, hdutch, hnlt]

/-- Counterexample to C1 as stated: carol's accepted, terminal Dutch
bid broadcasts a `newBid` event and no `auctionClosed` event. -/
theorem dutch_placeBid_broadcast_is_newBid :
    (placeBid (some dutchAuctionB) "B" "carol" 500 0).response =
      PlaceBidResponse.success 500 true ∧
    (placeBid (some dutchAuctionB) "B" "carol" 500 0).events =
      [Event.newBid "B" { bidder := "carol", amount := 500, timestamp := 0 } "dutch" true 500] ∧
    (placeBid (some dutchAuctionB) "B" "carol" 500 0).events.any Event.isAuctionClosed =
      false := by
  refine ⟨?_, ?_, ?_⟩ <;>
    norm_num [placeBid, acceptBid, dutchAuctionB, calculateDutchPrice, Event.isAuctionClosed]

/-- Witness for `dutch_placeBid_first_bid_wins`: dave's bid of 400 is
below the current price 500 at the start instant and is rejected. -/
theorem dutch_placeBid_first_bid_wins_witness :
    placeBid (some dutchAuctionB) "B" "dave" 400 0 =
      { response := PlaceBidResponse.bidTooLowDutch
          (calculateDutchPrice dutchAuctionB.startPrice dutchAuctionB.startTime
            dutchAuctionB.decrementRate dutchAuctionB.minimumPrice 0)
        write := none
        events := [] } :=
  (dutch_placeBid_first_bid_wins dutchAuctionB "B" "dave" 400 0 rfl rfl).1
    (by norm_num [dutchAuctionB, calculateDutchPrice])

/-! ## C2: English bid admission -/

/-- C2: for an open English auction whose recorded bids all have
positive amounts (the data-model invariant), with `M` the current
maximum bid amount (or `startPrice` when `bids` is empty), a bid with
`amount ≤ M` — equality included — fails `BidTooLow` carrying `M` with
no write and no broadcast, and a bid with `M < amount` is appended,
sets `currentPrice = amount`, is persisted, and broadcasts `newBid`. -/
theorem english_bid_admission (a : Auction) (auctionId bidder : String)
    (amount now M : ℚ) (hopen : a.closed = false) (heng : a.auctionType = "english")
    (hpos : ∀ b ∈ a.bids, 0 < b.amount)
    (hM : (a.bids = [] ∧ M = a.startPrice) ∨
      ((∃ b ∈ a.bids, b.amount = M) ∧ ∀ b ∈ a.bids, b.amount ≤ M)) :
    (amount ≤ M →
      placeBid (some a) auctionId bidder amount now =
        { response := PlaceBidResponse.bidTooLowEnglish (M = a.startPrice) M a.startPrice
          write := none
          events := [] }) ∧
    (M < amount →
      placeBid (some a) auctionId bidder amount now =
        { response := PlaceBidResponse.success amount false
          write := some { a with bids := a.bids ++ [{ bidder := bidder, amount := amount, timestamp := now }], currentPrice := amount }
          events := [Event.newBid auctionId { bidder := bidder, amount := amount, timestamp := now } a.auctionType false amount] }) := by
  have hthr : (if a.bids.length > 0 then maxBidAmount a.bids else a.startPrice) = M := by
    rcases hM with ⟨hnil, hMs⟩ | ⟨⟨b, hb, hbM⟩, hub⟩
    · simp [hnil, hMs]
    · have hne : a.bids ≠ [] := fun h => by simp [h] at hb
      have hlen : a.bids.length > 0 := List.length_pos.mpr hne
      have h0M : 0 ≤ M := le_of_lt (hbM ▸ hpos b hb)
      simp only [if_pos hlen]
      exact maxBidAmount_eq a.bids M ⟨b, hb, hbM⟩ hub h0M
  constructor
  · intro h
    have hle : amount ≤ (if a.bids.length > 0 then maxBidAmount a.bids else a.startPrice) :=
      hthr ▸ h
    simp only [placeBid, hopen, Bool.false_eq_true, if_false, heng]
    rw [if_neg (by decide)]
    rw [if_pos hle, hthr]
  · intro h
    have hnle : ¬ amount ≤ (if a.bids.length > 0 then maxBidAmount a.bids else a.startPrice) :=
      hthr ▸ not_le.mpr h
    simp only [placeBid, hopen, Bool.false_eq_true, if_false, heng]
    rw [if_neg (by decide), if_neg hnle]
    simp [acceptBid, hopen, heng]

/-- Witness for `english_bid_admission`: on the scenario auction with
alice's 1200 standing, bob's equal bid of 1200 is rejected with
threshold 1200. -/
theorem english_bid_admission_witness :
    placeBid (some englishAuctionA) "A" "bob" 1200 5 =
      { response := PlaceBidResponse.bidTooLowEnglish
          ((1200 : ℚ) = englishAuctionA.startPrice) 1200 englishAuctionA.startPrice
        write := none
        events := [] } :=
  (english_bid_admission englishAuctionA "A" "bob" 1200 5 1200 rfl rfl
      (by intro b hb; simp [englishAuctionA] at hb; simp [hb])
      (Or.inr ⟨⟨{ bidder := "alice", amount := 1200, timestamp := 1 },
        by simp [englishAuctionA], rfl⟩,
        by intro b hb; simp [englishAuctionA] at hb; simp [hb]⟩)).1 le_rfl

/-! ## C5: closeAuction on an already-closed auction -/

/-- The `winningBid` carried by a `closeAuction` response (the
already-closed error response carries none). -/
def CloseAuctionResponse.returnedWinningBid : CloseAuctionResponse → Option Bid
  | .success _ wb _ => wb
  | _ => none

/-- C5 (amended): a `closeAuction` call on an already-closed auction
performs no recomputation, no state change and no re-broadcast, and
returns an already-closed error carrying only the stored `highestBid`
(or null) — it does not return the stored `winningBid`; for an open
English auction, the closing call and a repeat call return the same
`highestBid`. -/
theorem closeAuction_repeat (a : Auction) (auctionId : String) :
    (a.closed = true →
      closeAuction (some a) auctionId =
        { response := CloseAuctionResponse.alreadyClosed a.highestBid, write := none,
          events := [] }) ∧
    (a.closed = false → a.auctionType = "english" →
      ∃ a2, (closeAuction (some a) auctionId).write = some a2 ∧
        (closeAuction (some a) auctionId).response =
          CloseAuctionResponse.success a2.highestBid a2.winningBid a2.auctionType ∧
        a2.highestBid = some (maxStoredBid a.bids) ∧
        closeAuction (some a2) auctionId =
          { response := CloseAuctionResponse.alreadyClosed (some (maxStoredBid a.bids)),
            write := none, events := [] }) := by
  constructor
  · intro h
    simp [closeAuction, h]
  · intro h heng
    refine ⟨{ a with closed := true, highestBid := some (maxStoredBid a.bids) },
      ?_, ?_, rfl, ?_⟩
    · simp [closeAuction, h, heng]
    · simp [closeAuction, h, heng]
    · simp [closeAuction]

/-- Counterexample to C5 as stated: for the Dutch auction closed by
carol's winning bid, the stored terminal record carries
`winningBid = some ("carol", 500)`, but a repeat `closeAuction` answers
only the already-closed error with `highestBid = null` and returns no
`winningBid` at all — not the stored terminal result. -/
theorem closeAuction_repeat_omits_winningBid :
    ((placeBid (some dutchAuctionB) "B" "carol" 500 0).write.map Auction.winningBid) =
      some (some { bidder := "carol", amount := 500, timestamp := 0 }) ∧
    ((placeBid (some dutchAuctionB) "B" "carol" 500 0).write.map
        (fun a1 => (closeAuction (some a1) "B").response)) =
      some (CloseAuctionResponse.alreadyClosed none) ∧
    ((placeBid (some dutchAuctionB) "B" "carol" 500 0).write.map
        (fun a1 => (closeAuction (some a1) "B").response.returnedWinningBid)) =
      some none := by
  refine ⟨?_, ?_, ?_⟩ <;>
    norm_num [placeBid, acceptBid, dutchAuctionB, calculateDutchPrice, closeAuction,
      CloseAuctionResponse.returnedWinningBid]

/-- Witness for `closeAuction_repeat` at the concrete closed Dutch
auction. -/
theorem closeAuction_repeat_witness :
    closeAuction (some closedDutchB) "B" =
      { response := CloseAuctionResponse.alreadyClosed closedDutchB.highestBid,
        write := none, events := [] } :=
  (closeAuction_repeat closedDutchB "B").1 rfl

/-! ## C6: openAuction performs no validation -/

/-- C6 (amended): `openAuction` validates nothing — every request is
accepted: an `auctionId` is returned and the record persisted
regardless of the auction type or the sign of the price; for a Dutch
request, an omitted (or zero) `decrementRate` defaults to `1` and an
omitted `minimumPrice` defaults to `0`. -/
theorem openAuction_accepts_everything (req : OpenAuctionRequest) (auctionId : String)
    (now : ℚ) :
    (openAuction req auctionId now).auctionId? = some auctionId ∧
    (openAuction req auctionId now).write ≠ none ∧
    (req.auctionType = some "dutch" →
      ∀ a, (openAuction req auctionId now).write = some a →
        ((req.decrementRate = none → a.decrementRate = 1) ∧
         (req.decrementRate = some 0 → a.decrementRate = 1) ∧
         (req.minimumPrice = none → a.minimumPrice = 0))) := by
  refine ⟨rfl, by simp [openAuction], ?_⟩
  intro hd a ha
  simp only [openAuction, Option.some.injEq] at ha
  subst ha
  refine ⟨?_, ?_, ?_⟩
  · intro hr; simp [hd, hr, defaultDecrementRate]
  · intro hr; simp [hd, hr, defaultDecrementRate]
  · intro hm; simp [hd, hm, defaultMinimumPrice]

/-- Counterexample to C6 as stated: a request with an unknown auction
type and a negative price is not rejected — it yields an `auctionId`
and a store write. -/
theorem openAuction_no_invalid_parameter :
    (openAuction { item := "x", price := -5, auctionType := some "french", decrementRate := none, minimumPrice := none } "A" 0).auctionId? = some "A" ∧
    (openAuction { item := "x", price := -5, auctionType := some "french", decrementRate := none, minimumPrice := none } "A" 0).write ≠ none := by
  constructor
  · rfl
  · simp [openAuction]

/-- The record `openAuction` writes for a Dutch request with omitted
`decrementRate` and `minimumPrice`. -/
def auctionDutchDefaults : Auction :=
  { item := "Print", auctionId := "B", bids := [], closed := false, auctionType := "dutch",
    startPrice := 500, startTime := 0, decrementRate := 1, minimumPrice := 0,
    currentPrice := 500, winner := none, finalPrice := none, winningBid := none,
    highestBid := none }

/-- Witness for `openAuction_accepts_everything`: a Dutch request with
omitted decrement rate and minimum price gets the defaults 1 and 0. -/
theorem openAuction_accepts_everything_witness :
    auctionDutchDefaults.decrementRate = 1 ∧ auctionDutchDefaults.minimumPrice = 0 :=
  ⟨((openAuction_accepts_everything { item := "Print", price := 500, auctionType := some "dutch", decrementRate := none, minimumPrice := none } "B" 0).2.2 rfl auctionDutchDefaults rfl).1 rfl,
   ((openAuction_accepts_everything { item := "Print", price := 500, auctionType := some "dutch", decrementRate := none, minimumPrice := none } "B" 0).2.2 rfl auctionDutchDefaults rfl).2.2 rfl⟩
